import Mathlib

/-!
Verification development for the Leboncoin "bureaux et commerces" scraper
(`leboncoin_scraper.py`).  The Python program is shallowly embedded: Python
dicts become association lists (`Dict`), Python `None` becomes `Value.null`
(or `Option.none` for typed fields), string slicing and `str.startswith`
become explicit list operations on the character data, and the `while`
pagination loop becomes a fuel-indexed structural recursion (the fuel bounds
the remaining iterations; the loop runs at most `max_pages` times since the
page counter starts at 1 and increases by 1 per iteration).
-/

namespace LBC

/-- Scalar cell of a normalized record: a Python dict value.  `null` models
Python `None`. -/
inductive Value where
  | str (s : String)
  | int (n : Int)
  | bool (b : Bool)
  | null
deriving DecidableEq, Repr

/-- A Python dict with string keys, embedded as an insertion-ordered
association list. -/
abbrev Dict := List (String × Value)

/-- Key membership, Python `k in d`. -/
def hasKey (d : Dict) (k : String) : Bool :=
  (List.lookup k d).isSome

/-- Python dict assignment `d[k] = v`: replace the value in place when the
key is present, append otherwise. -/
def dictInsert (d : Dict) (k : String) (v : Value) : Dict :=
  if d.any (fun p => p.1 == k) then
    d.map (fun p => if p.1 == k then (p.1, v) else p)
  else
    d ++ [(k, v)]

/-- Python `d.update(kvs)`: insert each pair in order. -/
def dictUpdate (d : Dict) (kvs : List (String × Value)) : Dict :=
  kvs.foldl (fun d2 p => dictInsert d2 p.1 p.2) d

/-- Python `d.pop(k, None)` restricted to its effect on the dict: drop the
entry with key `k`. -/
def dictPop (d : Dict) (k : String) : Dict :=
  d.filter (fun p => p.1 != k)

/-- Python slicing `s[:n]` on a `str`: the first `n` code points. -/
def pyTake (s : String) (n : Nat) : String :=
  String.mk (s.data.take n)

/-- Python `s.startswith(p)`. -/
def pyStartsWith (s p : String) : Bool :=
  p.data.isPrefixOf s.data

/-- Numeric value of a list of decimal digit characters, Python `int` on a
digit string. -/
def digitsToNat (cs : List Char) : Nat :=
  cs.foldl (fun n c => 10 * n + (c.toNat - 48)) 0

/-- Embedding of `re.search(r"\d+", s)` followed by `int(match.group())`:
the first maximal run of decimal digits in `s`, `none` when `s` has no
digit. -/
def firstDigitRun (s : String) : Option Nat :=
  let rest := s.data.dropWhile (fun c => !c.isDigit)
  let run := rest.takeWhile (fun c => c.isDigit)
  if run.isEmpty then none else some (digitsToNat run)

/-- One element of `ad.attributes` in the `lbc` library: a key / value /
value-label triple.  A missing or `None` label is modelled as `""` (both are
falsy in the Python truth test the code performs). -/
structure AdAttribute where
  key : String
  value : String
  value_label : String
deriving DecidableEq, Repr

/-- The attributes dict built at the top of `_process_ad`: key maps to the
pair (value, label). -/
abbrev AttrDict := List (String × (String × String))

/-- Python dict assignment for the attributes dict. -/
def attrInsert (d : AttrDict) (k : String) (v : String × String) : AttrDict :=
  if d.any (fun p => p.1 == k) then
    d.map (fun p => if p.1 == k then (p.1, v) else p)
  else
    d ++ [(k, v)]

/-- Lines 158-164 of `leboncoin_scraper.py`: keep attributes whose key and
value are truthy; the label falls back to the value when the label is
falsy. -/
def buildAttributes (attrs : List AdAttribute) : AttrDict :=
  attrs.foldl
    (fun d a =>
      if a.key ≠ "" ∧ a.value ≠ "" then
        attrInsert d a.key (a.value, if a.value_label ≠ "" then a.value_label else a.value)
      else d)
    []

/-- Location sub-record of a listing (`ad.location`). -/
structure AdLocation where
  city : String
  zipcode : String
  department_name : String
  region_name : String
  lat : Int
  lng : Int
deriving DecidableEq, Repr

/-- Pro-profile sub-record (`ad.user.pro`); each field is `Option` because
the code probes it with `hasattr`. -/
structure AdProProfile where
  online_store_name : Option String
  siret : Option String
  siren : Option String
  activity_sector : Option String
  website_url : Option String
deriving DecidableEq, Repr

/-- User sub-record (`ad.user`).  `getattr(user, "is_pro", False)` is
modelled by a plain `Bool` field. -/
structure AdUser where
  name : String
  is_pro : Bool
  pro : Option AdProProfile
deriving DecidableEq, Repr

/-- A raw listing object delivered by the `lbc` client, with exactly the
fields `_process_ad` reads.  `Option` marks fields that can be Python
`None` (or absent, for `favorites`). -/
structure RawListing where
  id : Int
  subject : String
  body : Option String
  price : Option Int
  url : String
  first_publication_date : String
  expiration_date : String
  category_name : String
  status : String
  favorites : Option Int
  location : Option AdLocation
  user : Option AdUser
  has_phone : Bool
  images : List String
  attributes : List AdAttribute
deriving DecidableEq, Repr

/-- Generic priority-ordered fallback loop shared (textually) by the four
label extractors: return the label of the first candidate key present in
the attributes dict, `""` when none is. -/
def extractLabelLoop (keys : List String) (attributes : AttrDict) : String :=
  match keys with
  | [] => ""
  | k :: ks =>
    match List.lookup k attributes with
    | some pr => pr.2
    | none => extractLabelLoop ks attributes

/-- Inner loop of `_extract_surface` (lines 228-237): for each candidate key
present in the dict, parse the first digit run of its value; a present key
whose value has no digits falls through to the next key (`if match:` fails
and the `for` loop continues). -/
def surfaceLoop (keys : List String) (attributes : AttrDict) : Option Nat :=
  match keys with
  | [] => none
  | k :: ks =>
    match List.lookup k attributes with
    | some pr =>
      match firstDigitRun pr.1 with
      | some n => some n
      | none => surfaceLoop ks attributes
    | none => surfaceLoop ks attributes

/-- Lines 225-238: `_extract_surface`. -/
def _extract_surface (attributes : AttrDict) : Option Nat :=
  surfaceLoop ["square", "surface", "area"] attributes

/-- Lines 240-246: `_extract_real_estate_type`. -/
def _extract_real_estate_type (attributes : AttrDict) : String :=
  extractLabelLoop ["real_estate_type", "property_type", "type"] attributes

/-- Lines 248-254: `_extract_energy_class`. -/
def _extract_energy_class (attributes : AttrDict) : String :=
  extractLabelLoop ["energy_rate", "dpe", "energy_class"] attributes

/-- Lines 256-262: `_extract_ges`. -/
def _extract_ges (attributes : AttrDict) : String :=
  extractLabelLoop ["ges", "greenhouse_gas", "co2"] attributes

/-- Lines 264-270: `_extract_furnished_status`. -/
def _extract_furnished_status (attributes : AttrDict) : String :=
  extractLabelLoop ["furnished", "meuble", "furnished_type"] attributes

/-- Line 169: `ad.body[:500] if ad.body else ""` (both `None` and `""` are
falsy). -/
def descriptionOf : Option String → String
  | none => ""
  | some b => if b = "" then "" else pyTake b 500

/-- An optional integer as a dict cell (`None` becomes `null`). -/
def optInt : Option Int → Value
  | some n => Value.int n
  | none => Value.null

/-- Stand-in for `json.dumps(attributes, ensure_ascii=False)` (line 203):
an opaque, computable serialization of the attributes dict.  No claim
inspects the serialized text. -/
def rawAttributesJson (attributes : AttrDict) : String :=
  attributes.foldl (fun s p => s ++ p.1 ++ ":" ++ p.2.1 ++ "|" ++ p.2.2 ++ ";") ""

/-- Lines 158-219: the body of the `try` block of `_process_ad`, building
the full normalized record for one listing.  `now` is the value of
`datetime.now().isoformat()` at normalization time. -/
def _process_ad_body (now : String) (ad : RawListing) : Dict :=
  let attributes := buildAttributes ad.attributes
  let ad_data : Dict := [
    ("id", Value.int ad.id),
    ("title", Value.str ad.subject),
    ("description", Value.str (descriptionOf ad.body)),
    ("price", optInt ad.price),
    ("url", Value.str ad.url),
    ("publication_date", Value.str ad.first_publication_date),
    ("expiration_date", Value.str ad.expiration_date),
    ("category", Value.str ad.category_name),
    ("status", Value.str ad.status),
    ("favorites", Value.int (ad.favorites.getD 0)),
    ("city", Value.str (match ad.location with | some l => l.city | none => "")),
    ("zipcode", Value.str (match ad.location with | some l => l.zipcode | none => "")),
    ("department", Value.str (match ad.location with | some l => l.department_name | none => "")),
    ("region", Value.str (match ad.location with | some l => l.region_name | none => "")),
    ("latitude", match ad.location with | some l => Value.int l.lat | none => Value.null),
    ("longitude", match ad.location with | some l => Value.int l.lng | none => Value.null),
    ("seller_type", Value.str (match ad.user with
      | some u => if u.is_pro then "pro" else "particulier"
      | none => "particulier")),
    ("seller_name", Value.str (match ad.user with | some u => u.name | none => "")),
    ("has_phone", Value.bool ad.has_phone),
    ("images_count", Value.int (if ad.images = [] then 0 else (ad.images.length : Int))),
    ("first_image_url", Value.str (match ad.images with | i :: _ => i | [] => "")),
    ("surface", match _extract_surface attributes with
      | some n => Value.int (n : Int)
      | none => Value.null),
    ("real_estate_type", Value.str (_extract_real_estate_type attributes)),
    ("energy_class", Value.str (_extract_energy_class attributes)),
    ("ges", Value.str (_extract_ges attributes)),
    ("furnished", Value.str (_extract_furnished_status attributes)),
    ("raw_attributes", Value.str (rawAttributesJson attributes)),
    ("scraped_at", Value.str now)
  ]
  match ad.user with
  | some u =>
    match u.pro with
    | some p =>
      dictUpdate ad_data [
        ("pro_store_name", Value.str (p.online_store_name.getD "")),
        ("pro_siret", Value.str (p.siret.getD "")),
        ("pro_siren", Value.str (p.siren.getD "")),
        ("pro_activity_sector", Value.str (p.activity_sector.getD "")),
        ("pro_website", Value.str (p.website_url.getD ""))
      ]
    | none => ad_data
  | none => ad_data

/-- Lines 147-223: `_process_ad`, including its `try`/`except` boundary.
The typed embedding cannot itself raise, so the possibility that some step
of the body raises a Python exception is an explicit input: `fail = none`
means the body ran without raising and `fail = some e` means some step
raised an exception rendered as the message `e`, in which case the
`except` branch (lines 221-223) returns the minimal error record. -/
def _process_ad (now : String) (fail : Option String) (ad : RawListing) : Dict :=
  match fail with
  | some e => [("id", Value.int ad.id), ("error", Value.str e)]
  | none => _process_ad_body now ad

/-- One page result returned by `lbc.Client.search`: the ordered listing
collection and the library-reported last page (`result.max_pages`). -/
structure SearchResult (α : Type) where
  ads : List α
  max_pages : Nat
deriving DecidableEq, Repr

/-- Lines 96-137: the `while page <= max_pages` pagination loop of
`search_bureaux_commerces`, generic in the listing type `α`, the processed
record type `β` and the client error type `ε`.  `client page` models
`self.client.search(page=page, ...)` (raising an exception becomes
`Except.error`), `process` models `self._process_ad`.  The returned pair is
(ordered list of page indices actually requested, outcome).  The `fuel`
argument makes the recursion structural: it bounds the remaining
iterations, and the top-level call passes `maxPages`, which is exact since
the page counter starts at 1 and increases by 1 per iteration (when fuel
reaches 0 the page counter exceeds `maxPages`, so the fuel-exhausted return
coincides with the loop-exit return).  The inter-request sleep is not
modelled. -/
def collectAux (client : Nat → Except ε (SearchResult α)) (process : α → β)
    (maxPages : Nat) : Nat → Nat → List β → List Nat → List Nat × Except ε (List β)
  | 0, _page, acc, trace => (trace, Except.ok acc)
  | fuel + 1, page, acc, trace =>
    if page ≤ maxPages then
      match client page with
      | Except.error e => (trace ++ [page], Except.error e)
      | Except.ok r =>
        if r.ads.isEmpty then
          (trace ++ [page], Except.ok acc)
        else
          if r.max_pages ≤ page then
            (trace ++ [page], Except.ok (acc ++ r.ads.map process))
          else
            collectAux client process maxPages fuel (page + 1)
              (acc ++ r.ads.map process) (trace ++ [page])
    else (trace, Except.ok acc)

/-- The pagination loop entered as the source does: page counter 1, empty
accumulator, no pages requested yet. -/
def collectPages (client : Nat → Except ε (SearchResult α)) (process : α → β)
    (maxPages : Nat) : List Nat × Except ε (List β) :=
  collectAux client process maxPages maxPages 1 [] []

/-- Lines 57-145: `search_bureaux_commerces` as observed from outside: the
requested pages, the outcome, and the value of `self.scraped_data` after
the call.  On success (`return all_ads`, line 145) the session accumulator
is overwritten with the collected records (line 144); on a client exception
the bare `raise` (line 141) skips that assignment, so the accumulator keeps
its previous value `oldData` and the collected local list is lost. -/
def search_bureaux_commerces (client : Nat → Except ε (SearchResult α))
    (process : α → β) (maxPages : Nat) (oldData : List β) :
    List Nat × Except ε (List β) × List β :=
  match collectPages client process maxPages with
  | (trace, Except.error e) => (trace, Except.error e, oldData)
  | (trace, Except.ok ads) => (trace, Except.ok ads, ads)

/-- A filesystem restricted to what the export touches: a map from path to
written row list (the CSV serialization itself is abstracted away; a file's
content is the list of rows `df.to_csv` would render). -/
abbrev FS := List (String × List Dict)

/-- Content lookup by path. -/
def fsLookup (fs : FS) (path : String) : Option (List Dict) :=
  List.lookup path fs

/-- The effect of `df.to_csv(filename, ...)`: create the file or silently
replace its content when the path already exists. -/
def fsWrite (fs : FS) (path : String) (rows : List Dict) : FS :=
  if fs.any (fun p => p.1 == path) then
    fs.map (fun p => if p.1 == path then (p.1, rows) else p)
  else
    fs ++ [(path, rows)]

/-- Lines 298-308: the row list written by `save_to_csv`: records flagged
with an `error` key are skipped, and the `raw_attributes` column is dropped
unless explicitly requested. -/
def csv_data (data : List Dict) (include_raw_attributes : Bool) : List Dict :=
  (data.filter (fun r => !hasKey r "error")).map
    (fun r => if include_raw_attributes then r else dictPop r "raw_attributes")

/-- Lines 290-296: filename resolution of `save_to_csv`.  A falsy filename
(`None` or `""`) is replaced by the synthesized
`leboncoin_bureaux_commerces_<city|all>_<timestamp>.csv`; then the `data/`
directory is prepended unless the name already starts with `data`. -/
def resolveFilename (filename : Option String) (city : Option String)
    (timestamp : String) : String :=
  let name :=
    match filename with
    | some f => if f = "" then
        "leboncoin_bureaux_commerces_" ++ (match city with | some c => c | none => "all")
          ++ "_" ++ timestamp ++ ".csv"
      else f
    | none =>
        "leboncoin_bureaux_commerces_" ++ (match city with | some c => c | none => "all")
          ++ "_" ++ timestamp ++ ".csv"
  if pyStartsWith name "data" then name else "data/" ++ name

/-- Outcome of `save_to_csv` together with the filesystem after the call:
`err` is the raised `ValueError` (filesystem untouched), `ok` carries the
returned filename. -/
inductive SaveResult where
  | err (msg : String) (fs : FS)
  | ok (filename : String) (fs : FS)
deriving DecidableEq, Repr

/-- Lines 272-315: `save_to_csv`.  `data` is `self.scraped_data`,
`timestamp` the value `datetime.now().strftime(...)` would produce.  The
empty-data guard (lines 283-284) raises before anything is created; the
write (line 312) goes through `fsWrite`, i.e. with no collision check. -/
def save_to_csv (fs : FS) (data : List Dict) (filename : Option String)
    (city : Option String) (include_raw_attributes : Bool) (timestamp : String) :
    SaveResult :=
  if data = [] then
    SaveResult.err "Aucune donnée à sauvegarder. Exécutez d'abord une recherche." fs
  else
    let target := resolveFilename filename city timestamp
    SaveResult.ok target (fsWrite fs target (csv_data data include_raw_attributes))

/-- The non-null numeric entries of the `price` column: pandas drops `NaN`
cells (records lacking the key and records whose price is `None`) from the
reductions `mean`, `median`, `min`, `max`. -/
def price_values (data : List Dict) : List Int :=
  data.filterMap (fun r =>
    match List.lookup "price" r with
    | some (Value.int n) => some n
    | _ => none)

/-- Python `"price" in df.columns`: some record carries the key at all. -/
def price_column_exists (data : List Dict) : Bool :=
  data.any (fun r => hasKey r "price")

/-- Line 333: `df["price"].mean() if "price" in df.columns else 0`, with
`NaN` modelled as `none` (a pandas reduction over an all-`NaN` column is
`NaN`). -/
def price_mean (data : List Dict) : Option ℚ :=
  if price_column_exists data then
    let ps := price_values data
    if ps = [] then none
    else some ((ps.map (fun n => (n : ℚ))).sum / (ps.length : ℚ))
  else some 0

/-- Insertion step of the sort underlying the median. -/
def insertSorted (x : Int) : List Int → List Int
  | [] => [x]
  | y :: ys => if x ≤ y then x :: y :: ys else y :: insertSorted x ys

/-- Ascending sort of the price column, standing in for the sort pandas
performs inside `median`. -/
def sortInts (l : List Int) : List Int :=
  l.foldr insertSorted []

/-- Line 334: `df["price"].median() if "price" in df.columns else 0`:
middle element of the sorted non-`NaN` values, average of the two middles
on even length, `NaN` (`none`) when no value remains. -/
def price_median (data : List Dict) : Option ℚ :=
  if price_column_exists data then
    let ps := sortInts (price_values data)
    if ps = [] then none
    else if ps.length % 2 = 1 then some ((ps.getD (ps.length / 2) 0 : Int) : ℚ)
    else some ((((ps.getD (ps.length / 2 - 1) 0) + (ps.getD (ps.length / 2) 0) : Int) : ℚ) / 2)
  else some 0

/-- Line 335: `df["price"].min() if "price" in df.columns else 0`. -/
def price_min (data : List Dict) : Option ℚ :=
  if price_column_exists data then
    match price_values data with
    | [] => none
    | x :: xs => some ((xs.foldl min x : Int) : ℚ)
  else some 0

/-- Line 336: `df["price"].max() if "price" in df.columns else 0`. -/
def price_max (data : List Dict) : Option ℚ :=
  if price_column_exists data then
    match price_values data with
    | [] => none
    | x :: xs => some ((xs.foldl max x : Int) : ℚ)
  else some 0

/-- The non-`NaN` entries of the `seller_type` column, in row order. -/
def seller_type_values (data : List Dict) : List String :=
  data.filterMap (fun r =>
    match List.lookup "seller_type" r with
    | some (Value.str s) => some s
    | _ => none)

/-- The non-`NaN` entries of the `city` column, in row order. -/
def city_values (data : List Dict) : List String :=
  data.filterMap (fun r =>
    match List.lookup "city" r with
    | some (Value.str s) => some s
    | _ => none)

/-- `Series.value_counts()` before its descending sort: one count per
distinct non-`NaN` value, keyed in first-encountered order. -/
def value_counts (l : List String) : List (String × Nat) :=
  l.dedup.map (fun v => (v, l.count v))

/-- Stable insertion for the descending count sort of `value_counts`. -/
def insertByCount (x : String × Nat) : List (String × Nat) → List (String × Nat)
  | [] => [x]
  | y :: ys => if y.2 ≤ x.2 then x :: y :: ys else y :: insertByCount x ys

/-- Descending stable sort by count: ties keep first-encountered order. -/
def sortByCountDesc (l : List (String × Nat)) : List (String × Nat) :=
  l.foldr insertByCount []

/-- Line 338: `df["seller_type"].value_counts().to_dict()` (empty when the
column is absent, i.e. when no record carries the key). -/
def seller_types_stat (data : List Dict) : List (String × Nat) :=
  if data.any (fun r => hasKey r "seller_type") then
    sortByCountDesc (value_counts (seller_type_values data))
  else []

/-- Line 339: `df["city"].value_counts().head(10).to_dict()`. -/
def top_cities_stat (data : List Dict) : List (String × Nat) :=
  if data.any (fun r => hasKey r "city") then
    (sortByCountDesc (value_counts (city_values data))).take 10
  else []

/-- The price block of the statistics dict (lines 332-337). -/
structure PriceStats where
  mean : Option ℚ
  median : Option ℚ
  min : Option ℚ
  max : Option ℚ
deriving DecidableEq, Repr

/-- The statistics dict built by `get_statistics` (lines 329-340). -/
structure Statistics where
  total_ads : Nat
  unique_cities : Nat
  price_stats : PriceStats
  seller_types : List (String × Nat)
  top_cities : List (String × Nat)
deriving DecidableEq, Repr

/-- Lines 317-342: `get_statistics` over `self.scraped_data`; the empty
session returns the empty dict (`none` here). -/
def get_statistics (data : List Dict) : Option Statistics :=
  if data = [] then none
  else some {
    total_ads := data.length
    unique_cities := if data.any (fun r => hasKey r "city") then
        (city_values data).dedup.length
      else 0
    price_stats := {
      mean := price_mean data
      median := price_median data
      min := price_min data
      max := price_max data }
    seller_types := seller_types_stat data
    top_cities := top_cities_stat data }

/-! Spec-side definitions.  The following definitions follow the
specification's words, not the code; they exist to be compared with the
code-derived definitions above. -/

/-- Formalization of the surface rule exactly as the claim states it: select
the FIRST candidate key present in the collection (later keys are never
consulted once an earlier key is present), then parse the first digit run
out of that key's value; absent when no key matches or the matched value has
no digits. -/
def surfaceClaimedSpec (attributes : AttrDict) : Option Nat :=
  ((["square", "surface", "area"].filterMap
      (fun k => List.lookup k attributes)).head?).bind
    (fun pr => firstDigitRun pr.1)

/-- Amended surface rule: the first digit run of the first candidate key, in
priority order, that is present AND whose value contains a digit; a present
key with a digit-free value is skipped and later keys are still tried. -/
def surfaceAmendedSpec (attributes : AttrDict) : Option Nat :=
  (["square", "surface", "area"].filterMap
    (fun k => (List.lookup k attributes).bind (fun pr => firstDigitRun pr.1))).head?

/-- Spec-side label rule shared by the four label extractors: the label of
the first candidate key present in the collection, `""` when none is. -/
def labelFirstMatchSpec (keys : List String) (attributes : AttrDict) : String :=
  (((keys.filterMap (fun k => List.lookup k attributes)).head?).map Prod.snd).getD ""

/-- The 28 keys every successfully normalized record carries, in insertion
order. -/
def baseSchemaKeys : List String :=
  ["id", "title", "description", "price", "url", "publication_date",
   "expiration_date", "category", "status", "favorites", "city", "zipcode",
   "department", "region", "latitude", "longitude", "seller_type",
   "seller_name", "has_phone", "images_count", "first_image_url", "surface",
   "real_estate_type", "energy_class", "ges", "furnished", "raw_attributes",
   "scraped_at"]

/-- The 5 extra keys added only when the seller carries a pro profile. -/
def proSchemaKeys : List String :=
  ["pro_store_name", "pro_siret", "pro_siren", "pro_activity_sector", "pro_website"]

/-- A record is a run record when it is the output of the normalizer on some
listing (with some normalization time and some exception outcome). -/
def IsRunRecord (r : Dict) : Prop :=
  ∃ now fail ad, r = _process_ad now fail ad

/-- A record carries a present (non-null, numeric) price. -/
def hasPresentPrice (r : Dict) : Bool :=
  match List.lookup "price" r with
  | some (Value.int _) => true
  | _ => false

/-! Concrete inputs used by counterexamples and witnesses. -/

/-- A pro profile with one present field. -/
def proX : AdProProfile :=
  { online_store_name := some "Boutique"
    siret := none
    siren := none
    activity_sector := none
    website_url := none }

/-- A listing whose seller is a pro user with a pro profile. -/
def adPro : RawListing :=
  { id := 1
    subject := "Bureau 85m2"
    body := some "hello"
    price := some 100
    url := "https://example/1"
    first_publication_date := "2024-01-01"
    expiration_date := "2024-02-01"
    category_name := "bureaux"
    status := "active"
    favorites := some 2
    location := none
    user := some { name := "alice", is_pro := true, pro := some proX }
    has_phone := false
    images := ["img1"]
    attributes := [{ key := "square", value := "85 m²", value_label := "85 m²" }] }

/-- A listing with no user, no price and no body. -/
def adPlain : RawListing :=
  { id := 2
    subject := "Commerce"
    body := none
    price := none
    url := "https://example/2"
    first_publication_date := "2024-01-03"
    expiration_date := "2024-02-03"
    category_name := "bureaux"
    status := "active"
    favorites := none
    location := none
    user := none
    has_phone := true
    images := []
    attributes := [] }

/-- The end-to-end pagination scenario of the spec: pages 1 and 2 hold two
listings each, page 3 is empty, and the client reports 3 as its last
page. -/
def clientScenario (a b c d : α) : Nat → Except Unit (SearchResult α) := fun p =>
  if p = 1 then Except.ok ⟨[a, b], 3⟩
  else if p = 2 then Except.ok ⟨[c, d], 3⟩
  else Except.ok ⟨[], 3⟩

/-- A client that delivers one listing on page 1 and raises on every later
page. -/
def clientFail : Nat → Except String (SearchResult String) := fun p =>
  if p = 1 then Except.ok ⟨["a"], 5⟩ else Except.error "boom"

/-- A client that always returns one listing and reports page 3 as last. -/
def clientSteady : Nat → Except Unit (SearchResult Unit) := fun _ =>
  Except.ok ⟨[()], 3⟩

/-- A one-file filesystem holding previous content at the export target. -/
def fsOld : FS := [("data/out.csv", [[("id", Value.int 0)]])]

/-- A one-row scraped dataset distinct from the one already on disk. -/
def rowsNew : List Dict := [[("id", Value.int 1)]]

/-- A collected sequence holding one normalized record without a price
value. -/
def dataNoPrice : List Dict := [_process_ad "t0" none adPlain]

/-- A collected sequence with one pro record, one plain record and one
error record. -/
def dataMixed : List Dict :=
  [_process_ad "t0" none adPro, _process_ad "t0" none adPlain,
   _process_ad "t0" (some "boom") adPlain]

/-! Helper lemmas. -/

theorem lookup_filter_none {β : Type} (k : String) (q : String × β → Bool) :
    ∀ l : List (String × β), List.lookup k l = none →
      List.lookup k (l.filter q) = none := by
  intro l
  induction l with
  | nil => intro _; simp
  | cons a l ih =>
    intro h
    rw [List.filter_cons]
    have h2 : List.lookup k (a :: l) = none := h
    rw [show (a : String × β) = (a.1, a.2) from rfl, List.lookup_cons] at h2
    rcases hk : (k == a.1) with _ | _
    · rw [hk] at h2
      simp only [hk] at h2 ⊢
      split
      · rw [show (a : String × β) = (a.1, a.2) from rfl, List.lookup_cons, hk]
        exact ih h2
      · exact ih h2
    · rw [hk] at h2
      simp at h2

theorem surfaceLoop_eq (keys : List String) (attributes : AttrDict) :
    surfaceLoop keys attributes =
      (keys.filterMap
        (fun k => (List.lookup k attributes).bind (fun pr => firstDigitRun pr.1))).head? := by
  induction keys with
  | nil => rfl
  | cons k ks ih =>
    rw [surfaceLoop, List.filterMap_cons]
    cases h : List.lookup k attributes with
    | none => simpa [h] using ih
    | some pr =>
      cases hd : firstDigitRun pr.1 with
      | none => simpa [h, hd] using ih
      | some n => simp [h, hd]

theorem extractLabelLoop_eq (keys : List String) (attributes : AttrDict) :
    extractLabelLoop keys attributes = labelFirstMatchSpec keys attributes := by
  induction keys with
  | nil => rfl
  | cons k ks ih =>
    rw [extractLabelLoop, labelFirstMatchSpec, List.filterMap_cons]
    cases h : List.lookup k attributes with
    | none => simpa [h, labelFirstMatchSpec] using ih
    | some pr => simp [h]

/-- C1: each field extractor follows its fixed priority list, but for
surface a present key whose value holds no digits is skipped and later keys
are still consulted, so the claimed rule (the first PRESENT key alone
decides) disagrees with the code when the first present key's value is
digit-free and a later key's value has digits.  The attribute collection
holding `square -> "no digits here"` and `area -> "85 m²"` yields 85 from
the code while the claim demands absence. -/
theorem C1_counterexample :
    _extract_surface [("square", ("no digits here", "x")), ("area", ("85 m²", "y"))]
        = some 85 ∧
    surfaceClaimedSpec [("square", ("no digits here", "x")), ("area", ("85 m²", "y"))]
        = none := by
  constructor
  · decide
  · decide

/-- C1 (amended): the label extractors (real-estate type, energy class,
GES, furnished) return the label of the first candidate key present in the
collection; the surface extractor returns the first run of decimal digits
of the first candidate key, in priority order square, surface, area, that
is present and whose value contains a digit (a present key with a
digit-free value is skipped); the field is absent when no candidate key
has a digit-bearing value; input "85 m²" parses to 85. -/
theorem C1_amended_thm (attributes : AttrDict) :
    _extract_surface attributes = surfaceAmendedSpec attributes ∧
    _extract_real_estate_type attributes
      = labelFirstMatchSpec ["real_estate_type", "property_type", "type"] attributes ∧
    _extract_energy_class attributes
      = labelFirstMatchSpec ["energy_rate", "dpe", "energy_class"] attributes ∧
    _extract_ges attributes
      = labelFirstMatchSpec ["ges", "greenhouse_gas", "co2"] attributes ∧
    _extract_furnished_status attributes
      = labelFirstMatchSpec ["furnished", "meuble", "furnished_type"] attributes ∧
    firstDigitRun "85 m²" = some 85 := by
  refine ⟨surfaceLoop_eq _ _, extractLabelLoop_eq _ _, extractLabelLoop_eq _ _,
    extractLabelLoop_eq _ _, extractLabelLoop_eq _ _, by decide⟩

/-- C2: the claim asserts one shared key set for all records of a run, but
the normalizer adds the five pro_* keys only to records whose seller
carries a pro profile: the pro listing and the plain listing normalize to
records with different key sets while neither is an error record. -/
theorem C2_counterexample :
    hasKey (_process_ad "t0" none adPro) "error" = false ∧
    hasKey (_process_ad "t0" none adPlain) "error" = false ∧
    (_process_ad "t0" none adPro).map Prod.fst
      ≠ (_process_ad "t0" none adPlain).map Prod.fst := by
  refine ⟨by decide, by decide, by decide⟩

/-- C2 (amended): every successfully normalized record carries all 28 base
schema keys, in schema order, with empty-string or null placeholders for
absent source values; records whose seller carries a pro profile carry
exactly the 5 additional pro_* keys, so two records of one run always agree
on the base key set but not necessarily on the full key set. -/
theorem C2_amended_thm (now : String) (ad : RawListing) :
    (_process_ad now none ad).map Prod.fst
      = baseSchemaKeys ++
        (match ad.user with
         | some u => (match u.pro with | some _ => proSchemaKeys | none => [])
         | none => []) := by
  show (_process_ad_body now ad).map Prod.fst = _
  unfold _process_ad_body
  cases hu : ad.user with
  | none => rfl
  | some u =>
    dsimp only
    cases hp : u.pro with
    | none => rfl
    | some p => rfl

/-- C3: the export performs no collision handling: on a filesystem already
holding `data/out.csv`, exporting with the explicit filename `out.csv`
returns successfully while the resulting filesystem holds the new rows
under the original name, the previous content is gone, and no
timestamp-suffixed file exists. -/
theorem C3_counterexample :
    fsLookup fsOld "data/out.csv" = some [[("id", Value.int 0)]] ∧
    save_to_csv fsOld rowsNew (some "out.csv") none false "TS"
      = SaveResult.ok "data/out.csv" [("data/out.csv", rowsNew)] := by
  refine ⟨by decide, by decide⟩

theorem any_eq_false_lookup_none (t : String) {β : Type} :
    ∀ l : List (String × β), l.any (fun p => p.1 == t) = false →
      List.lookup t l = none := by
  intro l
  induction l with
  | nil => intro _; rfl
  | cons a l ih =>
    intro h
    rw [List.any_cons] at h
    have h1 : (a.1 == t) = false := by
      cases ha : (a.1 == t) with
      | false => rfl
      | true => rw [ha] at h; simp at h
    have h2 : l.any (fun p => p.1 == t) = false := by
      cases hl : l.any (fun p => p.1 == t) with
      | false => rfl
      | true => rw [hl] at h; simp at h
    have hne : t ≠ a.1 := fun he => by
      rw [he] at h1; simp at h1
    rw [show (a : String × β) = (a.1, a.2) from rfl, List.lookup_cons,
      beq_eq_false_iff_ne.mpr hne]
    exact ih h2

theorem lookup_map_write_self (t : String) (rows : List Dict) :
    ∀ fs : FS, fs.any (fun p => p.1 == t) = true →
      List.lookup t (fs.map (fun p => if p.1 == t then (p.1, rows) else p))
        = some rows := by
  intro fs
  induction fs with
  | nil => intro h; simp at h
  | cons a l ih =>
    obtain ⟨a1, a2⟩ := a
    intro h
    rw [List.map_cons]
    cases ha : (a1 == t) with
    | true =>
      have he : a1 = t := eq_of_beq ha
      simp [List.lookup_cons, ha, he]
    | false =>
      rw [List.any_cons] at h
      simp only [ha, Bool.false_or] at h
      have hne : t ≠ a1 := fun he => by rw [he] at ha; simp at ha
      simp only [ha, Bool.false_eq_true, if_false, List.lookup_cons,
        beq_eq_false_iff_ne.mpr hne]
      exact ih h

theorem lookup_map_write_ne (t p : String) (rows : List Dict) (hne : p ≠ t) :
    ∀ fs : FS,
      List.lookup p (fs.map (fun q => if q.1 == t then (q.1, rows) else q))
        = List.lookup p fs := by
  intro fs
  induction fs with
  | nil => rfl
  | cons a l ih =>
    obtain ⟨a1, a2⟩ := a
    rw [List.map_cons]
    cases ha : (a1 == t) with
    | true =>
      have he : a1 = t := eq_of_beq ha
      have hpa : (p == a1) = false := beq_eq_false_iff_ne.mpr (by rw [he]; exact hne)
      simp only [ha, if_true, List.lookup_cons, hpa]
      exact ih
    | false =>
      simp only [ha, Bool.false_eq_true, if_false, List.lookup_cons]
      cases hpa : (p == a1) with
      | true => rfl
      | false => exact ih

theorem fsLookup_fsWrite_self (fs : FS) (t : String) (rows : List Dict) :
    fsLookup (fsWrite fs t rows) t = some rows := by
  unfold fsLookup fsWrite
  cases h : fs.any (fun p => p.1 == t) with
  | true =>
    rw [if_pos rfl]
    exact lookup_map_write_self t rows fs h
  | false =>
    rw [if_neg Bool.false_ne_true, List.lookup_append, any_eq_false_lookup_none t fs h]
    simp [List.lookup_cons]

theorem fsLookup_fsWrite_ne (fs : FS) (t p : String) (rows : List Dict)
    (hne : p ≠ t) : fsLookup (fsWrite fs t rows) p = fsLookup fs p := by
  unfold fsLookup fsWrite
  cases h : fs.any (fun q => q.1 == t) with
  | true =>
    rw [if_pos rfl]
    exact lookup_map_write_ne t p rows hne fs
  | false =>
    rw [if_neg Bool.false_ne_true, List.lookup_append]
    have hnone : List.lookup p [(t, rows)] = none := by
      rw [List.lookup_cons, beq_eq_false_iff_ne.mpr hne]
      rfl
    rw [hnone]
    exact Option.or_none

/-- C3 (amended): the export resolves its target name and writes it
unconditionally: the call succeeds, the target path afterwards holds
exactly the exported rows (replacing any previous content at that path),
and every other path is untouched. -/
theorem C3_amended_thm (fs : FS) (data : List Dict) (filename city : Option String)
    (inc : Bool) (ts : String) (h : data ≠ []) :
    save_to_csv fs data filename city inc ts
      = SaveResult.ok (resolveFilename filename city ts)
          (fsWrite fs (resolveFilename filename city ts) (csv_data data inc)) ∧
    fsLookup (fsWrite fs (resolveFilename filename city ts) (csv_data data inc))
        (resolveFilename filename city ts) = some (csv_data data inc) ∧
    ∀ p, p ≠ resolveFilename filename city ts →
      fsLookup (fsWrite fs (resolveFilename filename city ts) (csv_data data inc)) p
        = fsLookup fs p := by
  refine ⟨by simp [save_to_csv, h], fsLookup_fsWrite_self _ _ _,
    fun p hp => fsLookup_fsWrite_ne _ _ _ _ hp⟩

/-- C3 (amended) at a concrete input: the nonemptiness hypothesis holds for
the one-row dataset and the export overwrites the colliding target. -/
theorem C3_amended_witness :
    save_to_csv fsOld rowsNew (some "out.csv") none false "TS"
      = SaveResult.ok (resolveFilename (some "out.csv") none "TS")
          (fsWrite fsOld (resolveFilename (some "out.csv") none "TS")
            (csv_data rowsNew false)) :=
  (C3_amended_thm fsOld rowsNew (some "out.csv") none false "TS" (by decide)).1

/-- C4: on the end-to-end scenario (two listings on page 1, two on page 2,
an empty page 3, library-reported last page 3, configured maximum 5), the
collector fetches exactly pages 1, 2, 3 — never page 4 — and returns the
four records in page order and, within a page, in the page's listing
order. -/
theorem C4_thm {α : Type} (a b c d : α) :
    collectPages (clientScenario a b c d) id 5
      = ([1, 2, 3], Except.ok [a, b, c, d]) := rfl

theorem collectAux_trace_bound {α β ε : Type} (client : Nat → Except ε (SearchResult α))
    (process : α → β) (maxP : Nat) :
    ∀ fuel page acc trace, (∀ q ∈ trace, q ≤ maxP) →
      ∀ p ∈ (collectAux client process maxP fuel page acc trace).1, p ≤ maxP := by
  intro fuel
  induction fuel with
  | zero => intro page acc trace h p hp; exact h p hp
  | succ fuel ih =>
    intro page acc trace h p
    rw [collectAux]
    by_cases hpage : page ≤ maxP
    · rw [if_pos hpage]
      have hmem : ∀ q ∈ trace ++ [page], q ≤ maxP := by
        intro q hq
        rcases List.mem_append.mp hq with h1 | h2
        · exact h q h1
        · rw [List.mem_singleton] at h2; omega
      cases client page with
      | error e => exact fun hp => hmem p hp
      | ok r =>
        dsimp only
        cases r.ads.isEmpty with
        | true => rw [if_pos rfl]; exact fun hp => hmem p hp
        | false =>
          rw [if_neg Bool.false_ne_true]
          by_cases hmp : r.max_pages ≤ page
          · rw [if_pos hmp]; exact fun hp => hmem p hp
          · rw [if_neg hmp]
            exact ih (page + 1) (acc ++ r.ads.map process) (trace ++ [page]) hmem p
    · rw [if_neg hpage]
      exact fun hp => h p hp

/-- C5: whatever last-page value the client library reports on any page,
every page index the collector actually requests is at most the configured
max-page count. -/
theorem C5_thm {α β ε : Type} (client : Nat → Except ε (SearchResult α))
    (process : α → β) (maxPages p : Nat)
    (hp : p ∈ (collectPages client process maxPages).1) : p ≤ maxPages :=
  collectAux_trace_bound client process maxPages maxPages 1 [] []
    (fun q hq => absurd hq (List.not_mem_nil q)) p hp

/-- C5 at a concrete input: with max-pages 1 and a client that always has
more pages, page 1 is requested and the bound holds for it. -/
theorem C5_witness : (1 ∈ (collectPages clientSteady id 1).1) ∧ 1 ≤ 1 :=
  ⟨by decide, C5_thm clientSteady id 1 1 (by decide)⟩

theorem collectAux_trace_range {α β ε : Type} (client : Nat → Except ε (SearchResult α))
    (process : α → β) (maxP : Nat) :
    ∀ fuel page acc trace, ∃ k,
      (collectAux client process maxP fuel page acc trace).1
        = trace ++ List.range' page k := by
  intro fuel
  induction fuel with
  | zero => intro page acc trace; exact ⟨0, by simp [collectAux]⟩
  | succ fuel ih =>
    intro page acc trace
    rw [collectAux]
    by_cases hpage : page ≤ maxP
    · rw [if_pos hpage]
      cases client page with
      | error e => exact ⟨1, rfl⟩
      | ok r =>
        dsimp only
        cases r.ads.isEmpty with
        | true => rw [if_pos rfl]; exact ⟨1, rfl⟩
        | false =>
          rw [if_neg Bool.false_ne_true]
          by_cases hmp : r.max_pages ≤ page
          · rw [if_pos hmp]; exact ⟨1, rfl⟩
          · rw [if_neg hmp]
            obtain ⟨k, hk⟩ :=
              ih (page + 1) (acc ++ r.ads.map process) (trace ++ [page])
            refine ⟨k + 1, ?_⟩
            rw [hk, List.range'_succ, List.append_assoc]
            rfl
    · rw [if_neg hpage]
      exact ⟨0, by simp⟩

/-- C7: the run with a client that delivers one listing on page 1 and
raises on page 2 propagates the error (the run fails), requests page 2
exactly once, and leaves the session accumulator at its pre-run value: the
page-1 record is NOT retained, contradicting the claim's retention
clause. -/
theorem C7_counterexample :
    clientFail 1 = Except.ok ⟨["a"], 5⟩ ∧
    search_bureaux_commerces clientFail id 5 ([] : List String)
      = ([1, 2], Except.error "boom", []) :=
  ⟨rfl, rfl⟩

/-- C7 (amended): a client error is not retried — no page index is ever
requested twice — and it propagates to the caller as the run's outcome,
but the records gathered from the pages before the failure are discarded:
on a failed run the session accumulator keeps its previous value. -/
theorem C7_amended_thm {α β ε : Type} (client : Nat → Except ε (SearchResult α))
    (process : α → β) (maxP : Nat) (oldData : List β) :
    (search_bureaux_commerces client process maxP oldData).1.Nodup ∧
    ∀ e, (search_bureaux_commerces client process maxP oldData).2.1 = Except.error e →
      (search_bureaux_commerces client process maxP oldData).2.2 = oldData := by
  constructor
  · have h1 : (search_bureaux_commerces client process maxP oldData).1
        = (collectPages client process maxP).1 := by
      unfold search_bureaux_commerces
      cases collectPages client process maxP with
      | mk trace res =>
        cases res with
        | error e => rfl
        | ok ads => rfl
    obtain ⟨k, hk⟩ := collectAux_trace_range client process maxP maxP 1 [] []
    have h2 : (collectPages client process maxP).1 = List.range' 1 k := by
      rw [collectPages, hk]
      rfl
    rw [h1, h2]
    exact List.nodup_range' 1 k
  · intro e
    unfold search_bureaux_commerces
    cases collectPages client process maxP with
    | mk trace res =>
      cases res with
      | error e2 => intro _; rfl
      | ok ads => intro he; simp at he

/-- C7 (amended) at a concrete input: the failing client's error outcome is
concrete and the accumulator stays empty. -/
theorem C7_amended_witness :
    (search_bureaux_commerces clientFail id 5 ([] : List String)).2.2 = [] :=
  (C7_amended_thm clientFail id 5 []).2 "boom" rfl

/-- C8: exporting an empty record sequence raises the "nothing to save"
ValueError before anything is created: the outcome is the error and the
filesystem is returned unchanged. -/
theorem C8_thm (fs : FS) (filename city : Option String) (inc : Bool) (ts : String) :
    save_to_csv fs [] filename city inc ts
      = SaveResult.err "Aucune donnée à sauvegarder. Exécutez d'abord une recherche." fs
      := rfl

theorem lookup_body_id (now : String) (ad : RawListing) :
    List.lookup "id" (_process_ad_body now ad) = some (Value.int ad.id) := by
  unfold _process_ad_body
  cases hu : ad.user with
  | none => rfl
  | some u =>
    dsimp only
    cases hp : u.pro with
    | none => rfl
    | some p => rfl

theorem lookup_body_error (now : String) (ad : RawListing) :
    List.lookup "error" (_process_ad_body now ad) = none := by
  unfold _process_ad_body
  cases hu : ad.user with
  | none => rfl
  | some u =>
    dsimp only
    cases hp : u.pro with
    | none => rfl
    | some p => rfl

theorem lookup_body_description (now : String) (ad : RawListing) :
    List.lookup "description" (_process_ad_body now ad)
      = some (Value.str (descriptionOf ad.body)) := by
  unfold _process_ad_body
  cases hu : ad.user with
  | none => rfl
  | some u =>
    dsimp only
    cases hp : u.pro with
    | none => rfl
    | some p => rfl

theorem lookup_body_seller_isStr (now : String) (ad : RawListing) :
    ∃ s, List.lookup "seller_type" (_process_ad_body now ad)
      = some (Value.str s) := by
  unfold _process_ad_body
  cases hu : ad.user with
  | none => exact ⟨_, rfl⟩
  | some u =>
    dsimp only
    cases hp : u.pro with
    | none => exact ⟨_, rfl⟩
    | some p => exact ⟨_, rfl⟩

/-- C6: the normalizer is total with a minimal-record fallback, and error
records never reach the export: when the record body raises, the result is
exactly the minimal record carrying the identifier and the error marker;
for every exception outcome the produced record carries the listing
identifier; and every row of the exported row list is free of the error
marker. -/
theorem C6_thm (now e : String) (fail : Option String) (ad : RawListing)
    (data : List Dict) (inc : Bool) :
    _process_ad now (some e) ad
      = [("id", Value.int ad.id), ("error", Value.str e)] ∧
    List.lookup "id" (_process_ad now fail ad) = some (Value.int ad.id) ∧
    (csv_data data inc).all (fun r => !hasKey r "error") = true := by
  refine ⟨rfl, ?_, ?_⟩
  · cases fail with
    | some e2 => rfl
    | none => exact lookup_body_id now ad
  · rw [List.all_eq_true]
    intro r hr
    rw [csv_data] at hr
    rcases List.mem_map.mp hr with ⟨r0, hr0, hmap⟩
    rcases List.mem_filter.mp hr0 with ⟨_, hne⟩
    have hnone : List.lookup "error" r0 = none := by
      cases hl : List.lookup "error" r0 with
      | none => rfl
      | some v => rw [hasKey, hl] at hne; simp at hne
    subst hmap
    cases inc with
    | true =>
      rw [if_pos rfl, hasKey, hnone]
      rfl
    | false =>
      rw [if_neg Bool.false_ne_true]
      have h2 : List.lookup "error" (dictPop r0 "raw_attributes") = none := by
        rw [dictPop]
        exact lookup_filter_none "error" _ r0 hnone
      rw [hasKey, h2]
      rfl

/-- C10: the description field is the body truncated to its first 500
characters when the body is present — hence never longer than 500 — and
the empty string when the body is absent. -/
theorem C10_thm (now : String) (ad : RawListing) (s : String) :
    (ad.body = some s →
      List.lookup "description" (_process_ad now none ad)
        = some (Value.str (pyTake s 500)) ∧
      (pyTake s 500).length ≤ 500) ∧
    (ad.body = none →
      List.lookup "description" (_process_ad now none ad)
        = some (Value.str "")) := by
  constructor
  · intro hb
    constructor
    · show List.lookup "description" (_process_ad_body now ad) = _
      rw [lookup_body_description, hb]
      by_cases hs : s = ""
      · subst hs; rfl
      · simp [descriptionOf, hs]
    · show (s.data.take 500).length ≤ 500
      exact List.length_take_le 500 s.data
  · intro hb
    show List.lookup "description" (_process_ad_body now ad) = _
    rw [lookup_body_description, hb]
    rfl

/-- C10 at a concrete input: the pro listing has body "hello" and its
description equals the truncation of that body. -/
theorem C10_witness :
    List.lookup "description" (_process_ad "t0" none adPro)
      = some (Value.str (pyTake "hello" 500)) ∧
    (pyTake "hello" 500).length ≤ 500 :=
  (C10_thm "t0" adPro "hello").1 rfl

/-- C9: the degenerate "no present price" default is not zero: on the
one-record collected sequence whose listing carries no price, the price
column exists (the key is present, with a null value), no price value
remains after `NaN` removal, and all four price statistics are `NaN`
(`none`), not zero. -/
theorem C9_counterexample :
    price_column_exists dataNoPrice = true ∧
    price_values dataNoPrice = [] ∧
    price_mean dataNoPrice = none ∧
    price_median dataNoPrice = none ∧
    price_min dataNoPrice = none ∧
    price_max dataNoPrice = none := by
  refine ⟨by decide, by decide, by decide, by decide, by decide, by decide⟩

theorem sum_insertByCount (x : String × Nat) (l : List (String × Nat)) :
    ((insertByCount x l).map Prod.snd).sum = x.2 + (l.map Prod.snd).sum := by
  induction l with
  | nil => simp [insertByCount]
  | cons y ys ih =>
    rw [insertByCount]
    by_cases h : y.2 ≤ x.2
    · rw [if_pos h]
      simp [List.map_cons, List.sum_cons]
    · rw [if_neg h]
      rw [List.map_cons, List.sum_cons, ih, List.map_cons, List.sum_cons]
      omega

theorem sum_sortByCountDesc (l : List (String × Nat)) :
    ((sortByCountDesc l).map Prod.snd).sum = (l.map Prod.snd).sum := by
  induction l with
  | nil => rfl
  | cons x xs ih =>
    have h1 : sortByCountDesc (x :: xs) = insertByCount x (sortByCountDesc xs) := rfl
    rw [h1, sum_insertByCount, ih, List.map_cons, List.sum_cons]

theorem sum_value_counts (l : List String) :
    ((value_counts l).map Prod.snd).sum = l.length := by
  rw [value_counts, List.map_map]
  have h1 : (Prod.snd ∘ fun v => (v, l.count v)) = fun v => l.count v := rfl
  rw [h1]
  exact List.sum_map_count_dedup_eq_length l

theorem runRecord_seller_error (r : Dict) (h : IsRunRecord r) :
    (match List.lookup "seller_type" r with
      | some (Value.str s) => some s
      | _ => none).isSome = !hasKey r "error" := by
  obtain ⟨now, fail, ad, rfl⟩ := h
  cases fail with
  | some e => rfl
  | none =>
    obtain ⟨s, hs⟩ := lookup_body_seller_isStr now ad
    show (match List.lookup "seller_type" (_process_ad_body now ad) with
      | some (Value.str s) => some s
      | _ => none).isSome = !hasKey (_process_ad_body now ad) "error"
    rw [hs, hasKey, lookup_body_error]
    rfl

theorem seller_values_length (data : List Dict)
    (h : ∀ r ∈ data, IsRunRecord r) :
    (seller_type_values data).length
      = (data.filter (fun r => !hasKey r "error")).length := by
  induction data with
  | nil => rfl
  | cons r rest ih =>
    have hr := runRecord_seller_error r (h r (List.mem_cons_self r rest))
    have hrest := ih (fun r2 h2 => h r2 (List.mem_cons_of_mem r h2))
    rw [seller_type_values, List.filterMap_cons, List.filter_cons]
    cases hf : (match List.lookup "seller_type" r with
        | some (Value.str s) => some s
        | _ => none) with
    | some s =>
      have hkeep : (!hasKey r "error") = true := by rw [← hr, hf]; rfl
      rw [hkeep, if_pos rfl, List.length_cons, List.length_cons]
      rw [seller_type_values] at hrest
      rw [hrest]
    | none =>
      have hdrop : (!hasKey r "error") = false := by rw [← hr, hf]; rfl
      rw [hdrop, if_neg Bool.false_ne_true]
      rw [seller_type_values] at hrest
      rw [hrest]

theorem seller_values_nonempty_any (data : List Dict) :
    seller_type_values data ≠ [] →
      data.any (fun r => hasKey r "seller_type") = true := by
  induction data with
  | nil => intro h; exact absurd rfl h
  | cons r rest ih =>
    intro h
    rw [List.any_cons]
    cases hl : List.lookup "seller_type" r with
    | some v =>
      rw [hasKey, hl]
      rfl
    | none =>
      have hv : seller_type_values (r :: rest) = seller_type_values rest := by
        rw [seller_type_values, List.filterMap_cons, hl]
        rfl
      rw [hasKey, hl, Option.isSome_none, Bool.false_or]
      exact ih (hv ▸ h)

theorem price_values_nonempty_column (data : List Dict) :
    price_values data ≠ [] → price_column_exists data = true := by
  induction data with
  | nil => intro h; exact absurd rfl h
  | cons r rest ih =>
    intro h
    rw [price_column_exists, List.any_cons]
    cases hl : List.lookup "price" r with
    | some v =>
      rw [hasKey, hl]
      rfl
    | none =>
      have hv : price_values (r :: rest) = price_values rest := by
        rw [price_values, List.filterMap_cons, hl]
        rfl
      rw [hasKey, hl, Option.isSome_none, Bool.false_or]
      exact ih (hv ▸ h)

theorem filterMap_filter_isSome {γ δ : Type} (f : γ → Option δ) (p : γ → Bool)
    (hp : ∀ r, p r = (f r).isSome) (l : List γ) :
    l.filterMap f = (l.filter p).filterMap f := by
  induction l with
  | nil => rfl
  | cons a l ih =>
    rw [List.filterMap_cons, List.filter_cons]
    cases hf : f a with
    | none =>
      have hpa : p a = false := by rw [hp, hf]; rfl
      rw [hpa, if_neg Bool.false_ne_true]
      exact ih
    | some b =>
      have hpa : p a = true := by rw [hp, hf]; rfl
      rw [hpa, if_pos rfl, List.filterMap_cons, hf, ih]

theorem hasPresentPrice_eq_isSome (r : Dict) :
    hasPresentPrice r
      = (match List.lookup "price" r with
          | some (Value.int n) => some n
          | _ => none).isSome := by
  rw [hasPresentPrice]
  cases hl : List.lookup "price" r with
  | none => rfl
  | some v => cases v <;> rfl

/-- C9 (amended): the seller-type distribution's counts sum exactly to the
number of exported (non-error) records; the price statistics are computed
only over the records carrying a present price (records with an absent
price contribute nothing); but the degenerate default is not zero: when at
least one record carries the price field and none has a value, each price
statistic is `NaN` (`none`), and the statistics are zero only when no
record carries the price field at all (a run whose records are all error
records); over a nonempty value list the mean is the exact average of the
present prices. -/
theorem C9_amended_thm (data : List Dict) (hrun : ∀ r ∈ data, IsRunRecord r) :
    ((seller_types_stat data).map Prod.snd).sum
        = (data.filter (fun r => !hasKey r "error")).length ∧
    price_values data = price_values (data.filter (fun r => hasPresentPrice r)) ∧
    (price_column_exists data = false →
      price_mean data = some 0 ∧ price_median data = some 0 ∧
      price_min data = some 0 ∧ price_max data = some 0) ∧
    (price_column_exists data = true → price_values data = [] →
      price_mean data = none ∧ price_median data = none ∧
      price_min data = none ∧ price_max data = none) ∧
    (price_values data ≠ [] →
      price_mean data
        = some (((price_values data).map (fun n => (n : ℚ))).sum
            / ((price_values data).length : ℚ))) := by
  refine ⟨?_, ?_, ?_, ?_, ?_⟩
  · rw [seller_types_stat]
    cases hany : data.any (fun r => hasKey r "seller_type") with
    | true =>
      rw [if_pos rfl, sum_sortByCountDesc, sum_value_counts]
      exact seller_values_length data hrun
    | false =>
      rw [if_neg Bool.false_ne_true]
      have hvals : seller_type_values data = [] := by
        cases hv : seller_type_values data with
        | nil => rfl
        | cons s ss =>
          have := seller_values_nonempty_any data (by rw [hv]; exact (by simp))
          rw [this] at hany
          simp at hany
      have hlen := seller_values_length data hrun
      rw [hvals] at hlen
      rw [← hlen]
      rfl
  · exact filterMap_filter_isSome _ _ hasPresentPrice_eq_isSome data
  · intro h
    refine ⟨?_, ?_, ?_, ?_⟩
    · simp [price_mean, h]
    · simp [price_median, h]
    · simp [price_min, h]
    · simp [price_max, h]
  · intro h hv
    refine ⟨?_, ?_, ?_, ?_⟩
    · simp [price_mean, h, hv]
    · simp [price_median, h, hv, sortInts]
    · simp [price_min, h, hv]
    · simp [price_max, h, hv]
  · intro h
    rw [price_mean, price_values_nonempty_column data h, if_pos rfl]
    rw [if_neg h]

/-- C9 (amended) at a concrete input: on the mixed three-record run data
(a pro record with a price, a plain record without, an error record), the
run hypothesis holds and the seller-type counts sum to the two non-error
records. -/
theorem C9_amended_witness :
    ((seller_types_stat dataMixed).map Prod.snd).sum
      = (dataMixed.filter (fun r => !hasKey r "error")).length :=
  (C9_amended_thm dataMixed (by
    intro r hr
    rw [dataMixed] at hr
    rcases List.mem_cons.mp hr with h | hr2
    · exact ⟨"t0", none, adPro, h⟩
    rcases List.mem_cons.mp hr2 with h | hr3
    · exact ⟨"t0", none, adPlain, h⟩
    rcases List.mem_cons.mp hr3 with h | hr4
    · exact ⟨"t0", some "boom", adPlain, h⟩
    · exact absurd hr4 (List.not_mem_nil r))).1

end LBC
